import Mathlib

/-!
Verification development for the gopisysfs library: a shallow embedding of
the revision lookup tables, the GPIO port registry, the sysfs file helpers,
the Enable readiness polling loop, the await-file primitives, the GPIO edge
monitor loop and the I2C poller loop, together with theorems about the
behaviour of these operations.
-/

namespace Gopisysfs

/-! ## Revision tables and detail construction (sysfsaccess.go, unnamed/part_000) -/

/-- GPIO26HeaderV1 from sysfsaccess.go: pins on the 26 pin P1 header, V1.0 boards. -/
def GPIO26HeaderV1 : List Int :=
  [14, 15, 18, 23, 24, 25, 8, 7, 0, 1, 4, 17, 21, 22, 10, 9, 11]

/-- GPIO26HeaderV2 from sysfsaccess.go: pins on the 26 pin P1 header, V2.0 boards. -/
def GPIO26HeaderV2 : List Int :=
  [14, 15, 18, 23, 24, 25, 8, 7, 2, 3, 4, 17, 27, 22, 10, 9, 11]

/-- GPIO40HeaderV1 from sysfsaccess.go: pins on the 40 pin P1 header. -/
def GPIO40HeaderV1 : List Int :=
  [14, 15, 18, 23, 24, 25, 8, 7, 12, 16, 20, 21, 2, 3, 4, 17, 27, 22, 10, 9, 11, 5, 6, 13, 19, 26]

/-- Revisions mapped to key "26v10" in modelMaps (setModelMaps). -/
def rev26v10 : List String := ["Beta", "0002", "0003"]

/-- Revisions mapped to key "26v20" in modelMaps (setModelMaps). -/
def rev26v20 : List String :=
  ["0004", "0005", "0006", "0007", "0008", "0009", "000d", "000e", "000f"]

/-- Revisions mapped to key "40v10" in modelMaps (setModelMaps). -/
def rev40v10 : List String :=
  ["0010", "0011", "0012", "0013", "0014", "0015", "a01040", "a01041", "a21041",
   "a22042", "900021", "900092", "900093", "920093", "a02082", "a22082"]

/-- findRevisionMap from sysfsaccess.go. The Go code iterates the modelMaps map in
randomized order, but the three revision lists are pairwise disjoint, so at most
one key can match and the result is deterministic. -/
def findRevisionMap (revision : String) : String :=
  if revision ∈ rev26v10 then "26v10"
  else if revision ∈ rev26v20 then "26v20"
  else if revision ∈ rev40v10 then "40v10"
  else ""

/-- The pin list computed by GetDetailsFor (sysfsaccess.go lines 124 to 147).
The local pins slice starts nil and is only assigned by the switch cases
"26v10", "26v20" and "40v10"; the fallback key is the string "40V10" with an
upper case V, which matches no case, so the nil (empty) slice survives. -/
def getDetailsForPins (revision : String) : List Int :=
  let pinMap0 := findRevisionMap revision
  let pinMap := if pinMap0 = "" then "40V10" else pinMap0
  if pinMap = "26v10" then GPIO26HeaderV1
  else if pinMap = "26v20" then GPIO26HeaderV2
  else if pinMap = "40v10" then GPIO40HeaderV1
  else []

/-- The Pi value built by GetDetailsFor, plus whether the fallback log line ran. -/
structure DetailsOut where
  model : String
  revision : String
  gpioPorts : List Int
  loggedFallback : Bool
deriving Repr, DecidableEq

/-- GetDetailsFor from sysfsaccess.go. The loggedFallback field records whether
the log.Printf fallback notice executed. -/
def GetDetailsFor (revision model : String) : DetailsOut :=
  { model := model
    revision := revision
    gpioPorts := getDetailsForPins revision
    loggedFallback := findRevisionMap revision = "" }

/-- Insertion step for the model of sort.Ints. -/
def insertSorted (x : Int) : List Int → List Int
  | [] => [x]
  | y :: ys => if x ≤ y then x :: y :: ys else y :: insertSorted x ys

/-- Ascending sort, modelling sort.Ints in buildPi. -/
def sortInts (l : List Int) : List Int := l.foldr insertSorted []

/-- The gpioports field computed by buildPi (unnamed/part_000 lines 192 to 220):
the same pin selection as GetDetailsFor, then sort.Ints. -/
def buildPiPorts (revision : String) : List Int :=
  sortInts (getDetailsForPins revision)

/-! ## GetPort and the per line port cache (unnamed/part_000 lines 261 to 273) -/

/-- A port controller object; objId models Go object identity (each newGPIO call
yields a distinct object). -/
structure GPort where
  port : Int
  objId : Nat
deriving Repr, DecidableEq

/-- The mutable state of a pi value that GetPort touches: the availableGPIO map,
the portctrl cache and a counter supplying fresh object identities. -/
structure PiSt where
  available : Int → Bool
  cache : Int → Option GPort
  nextId : Nat

/-- A filesystem operation, used to trace the I/O a call performs. -/
inductive FsOp
  | write (path content : String)
  | stat (path : String)
  | read (path : String)
deriving Repr, DecidableEq

/-- GetPort from unnamed/part_000. The availableGPIO check happens first; on an
unavailable port the function returns before the lock, the cache lookup and any
filesystem access. newGPIO only assembles path strings and performs no
filesystem operation, so every branch has an empty operation trace. Concurrent
calls are serialized by the pi mutex, so the sequential model is faithful. -/
def GetPort (st : PiSt) (port : Int) : Except String GPort × PiSt × List FsOp :=
  if st.available port = false then
    (Except.error ("Port " ++ toString port ++ " is not available on this system"), st, [])
  else
    match st.cache port with
    | some pctrl => (Except.ok pctrl, st, [])
    | none =>
      let pctrl : GPort := { port := port, objId := st.nextId }
      (Except.ok pctrl,
        { available := st.available
          cache := fun q => if q = port then some pctrl else st.cache q
          nextId := st.nextId + 1 },
        [])

/-! ## Slice heap model for P1GPIOPorts (unnamed/part_000 lines 239 to 243) -/

/-- A heap of int slices: slice identifiers are allocation indices below next. -/
structure SliceHeap where
  data : Nat → List Int
  next : Nat

/-- Allocation of a fresh slice holding the given contents (models make plus copy). -/
def allocSlice (h : SliceHeap) (v : List Int) : Nat × SliceHeap :=
  (h.next,
    { data := fun i => if i = h.next then v else h.data i
      next := h.next + 1 })

/-- In place element update of an existing slice (models writing through a slice). -/
def sliceSet (h : SliceHeap) (id : Nat) (idx : Nat) (x : Int) : SliceHeap :=
  { data := fun i => if i = id then (h.data id).set idx x else h.data i
    next := h.next }

/-- P1GPIOPorts from unnamed/part_000: cp := make of the same length, copy the
stored gpioports into cp, return cp. In the heap model this is an allocation of
a fresh slice holding a copy of the stored contents. -/
def p1GPIOPorts (portsId : Nat) (h : SliceHeap) : Nat × SliceHeap :=
  allocSlice h (h.data portsId)

/-! ## writeFile, readFile and file modes (sysfsaccess.go lines 242 to 246) -/

/-- The permission argument writeFile passes to ioutil.WriteFile. -/
def writeFileMode : Nat := 0o444

/-- Owner write permission bit of a mode word. -/
def permOwnerWrite (mode : Nat) : Bool := mode / 0o200 % 2 = 1

/-- Owner read permission bit of a mode word. -/
def permOwnerRead (mode : Nat) : Bool := mode / 0o400 % 2 = 1

/-- A file system mapping names to mode and content. -/
structure FS where
  files : String → Option (Nat × String)

/-- writeFile from sysfsaccess.go via ioutil.WriteFile semantics: open with
O_WRONLY, O_CREATE and O_TRUNC and permission 0444. A missing file is created
with mode 0444 and the write succeeds; an existing file is opened for writing,
which for a non root caller requires the write permission bit, so a read only
file yields a permission error and the file is unchanged. -/
def writeFileM (isRoot : Bool) (fs : FS) (name text : String) : FS × Option String :=
  match fs.files name with
  | none =>
    ({ files := fun q => if q = name then some (writeFileMode, text) else fs.files q }, none)
  | some (mode, _) =>
    if isRoot || permOwnerWrite mode then
      ({ files := fun q => if q = name then some (mode, text) else fs.files q }, none)
    else
      (fs, some "permission denied")

/-- readFile from sysfsaccess.go: ioutil.ReadFile (needs the read permission
bit for a non root caller) then TrimSpace. -/
def readFileM (isRoot : Bool) (fs : FS) (name : String) : Except String String :=
  match fs.files name with
  | none => Except.error "no such file"
  | some (mode, content) =>
    if isRoot || permOwnerRead mode then Except.ok content.trim
    else Except.error "permission denied"

/-! ## The Enable readiness polling loop (unnamed/part_002 lines 95 to 146) -/

/-- pollInterval from unnamed/part_005, in milliseconds. -/
def pollIntervalMs : Nat := 20

/-- timelimit from unnamed/part_002, in milliseconds. -/
def timelimitMs : Nat := 1000

/-- The observation one iteration of the Enable polling loop makes about a
control file: the file is absent (checkFile false), or checkFile is true and
the probe writeFile succeeded, failed with a permission error, or failed with
some other error. -/
inductive Probe
  | absent
  | writeOk
  | permDenied
  | otherErr
deriving Repr, DecidableEq

/-- The break condition of the inner loop in Enable: checkFile must succeed and
the probe write must return either nil or an error that os.IsPermission rejects.
So an absent file and a permission denied probe keep polling; a successful or
otherwise failing probe write counts as ready. -/
def probeReady : Probe → Bool
  | Probe.absent => false
  | Probe.writeOk => true
  | Probe.permDenied => false
  | Probe.otherErr => true

/-- The inner polling loop of Enable for one file. obs k is the observation the
loop makes at its k-th check; remaining is the budget timelimit minus elapsed,
in milliseconds. The check runs before the select, so a ready observation
succeeds even with an exhausted budget; otherwise the select between
time.After(remaining) and time.After(pollInterval) times out when the remaining
budget does not exceed one poll interval, and else sleeps one poll interval and
retries. On success the result is the index of the succeeding check, i.e. the
number of whole poll intervals waited. -/
def enableAwaitFile (obs : Nat → Probe) (k : Nat) (remaining : Nat) : Except String Nat :=
  if probeReady (obs k) then Except.ok k
  else if remaining ≤ pollIntervalMs then
    Except.error "Timed out enabling GPIO - file not yet writable"
  else enableAwaitFile obs (k + 1) (remaining - pollIntervalMs)
termination_by remaining
decreasing_by simp [pollIntervalMs] at *; omega

/-- The outer loop of Enable over the files folder, direction, value, edge: each
file consumes part of the shared budget; the remaining budget decreases by the
time the preceding loops spent waiting. Returns the unused budget on success. -/
def enableFiles (probes : List (Nat → Probe)) (r : Nat) : Except String Nat :=
  match probes with
  | [] => Except.ok r
  | p :: rest =>
    match enableAwaitFile p 0 r with
    | Except.error e => Except.error e
    | Except.ok m => enableFiles rest (r - pollIntervalMs * m)

/-- The environment a call to Enable runs against: whether the control folder
already exists, the outcome of the export write, the outcome of awaiting folder
creation, the time already consumed before the file polling loop starts (the
folder wait plus the fixed two poll interval delay), and the per file
observation streams (index 0 the folder, 1 direction, 2 value, 3 edge). -/
structure EnableEnv where
  folderExists : Bool
  exportWrite : Option String
  folderAwait : Except String Unit
  preElapsed : Nat
  probes : Fin 4 → Nat → Probe

/-- Enable from unnamed/part_002: no-op when the folder exists; else write the
port number to the export file, await folder creation, then poll folder,
direction, value and edge until each is ready, under the shared budget. -/
def enable (env : EnableEnv) : Except String Unit :=
  if env.folderExists then Except.ok ()
  else
    match env.exportWrite with
    | some e => Except.error e
    | none =>
      match env.folderAwait with
      | Except.error e => Except.error e
      | Except.ok _ =>
        match enableFiles [env.probes 0, env.probes 1, env.probes 2, env.probes 3]
            (timelimitMs - env.preElapsed) with
        | Except.error e => Except.error e
        | Except.ok _ => Except.ok ()

/-! ## awaitFileCreate and awaitFileRemove (sysfsaccess.go lines 172 to 216,
unnamed/part_005 lines 261 to 298, unnamed/part_006 lines 166 to 225) -/

/-- The timeout message produced by the polling loops. -/
def timeoutMsg : String := "Timed out waiting"

/-- The returned channel together with every value ever sent on it over its
lifetime, in order. -/
structure Handle where
  capacity : Nat
  sends : List (Option String)
deriving Repr, DecidableEq

/-- The body of the polling goroutine shared by awaitFileCreate and
awaitFileRemove: check the condition, send nil when it holds; otherwise
select between the timeout (out of fuel: send the timeout error) and the next
ticker tick (retry). present k is the polled condition at the k-th check; fuel
is the number of ticker ticks that fire before the timeout does. Each exit path
sends exactly one value. -/
def awaitSends (present : Nat → Bool) : Nat → Nat → List (Option String)
  | 0, k => if present k then [none] else [some timeoutMsg]
  | fuel + 1, k => if present k then [none] else awaitSends present fuel (k + 1)

/-- awaitFileCreate, polling variant (sysfsaccess.go): a channel of capacity
one; when the file already exists the nil result is sent immediately and no
goroutine starts; when the parent directory check fails no channel is returned
at all; otherwise the polling goroutine produces the single value. -/
def awaitFileCreate (existsNow parentOk : Bool) (present : Nat → Bool) (fuel : Nat) :
    Option Handle :=
  if existsNow then some { capacity := 1, sends := [none] }
  else if parentOk = false then none
  else some { capacity := 1, sends := awaitSends present fuel 0 }

/-- awaitFileRemove (unnamed/part_005): same single slot channel; immediate nil
when the file is already absent, else the polling goroutine with the absence
condition. -/
def awaitFileRemove (absentNow : Bool) (absent : Nat → Bool) (fuel : Nat) : Option Handle :=
  if absentNow then some { capacity := 1, sends := [none] }
  else some { capacity := 1, sends := awaitSends absent fuel 0 }

/-- What the fsnotify based awaitFileCreate variant (unnamed/part_006) selects
on at the k-th turn of its loop: the timeout is modelled by fuel exhaustion,
and before that each turn either sees a watcher event (retry) or receives an
error from the watcher Errors channel. -/
inductive WatchTurn
  | event
  | watchErr (e : String)
deriving Repr, DecidableEq

/-- The goroutine body of the fsnotify variant of awaitFileCreate
(unnamed/part_006 lines 191 to 221): stat the file, send nil when present;
otherwise select among the timeout (send the timeout error), the watcher
Errors channel (forward that error) and the watcher Events channel (retry). -/
def awaitSendsFsn (present : Nat → Bool) : Nat → Nat → (Nat → WatchTurn) →
    List (Option String)
  | 0, k, _ => if present k then [none] else [some timeoutMsg]
  | fuel + 1, k, turns =>
    if present k then [none]
    else
      match turns k with
      | WatchTurn.watchErr e => [some e]
      | WatchTurn.event => awaitSendsFsn present fuel (k + 1) turns

/-- awaitFileCreate, fsnotify variant (unnamed/part_006): capacity one channel;
immediate nil when the file exists, no channel when the watcher setup fails,
else the watcher goroutine produces the single value. -/
def awaitFileCreateFsn (existsNow watcherOk : Bool) (present : Nat → Bool) (fuel : Nat)
    (turns : Nat → WatchTurn) : Option Handle :=
  if existsNow then some { capacity := 1, sends := [none] }
  else if watcherOk = false then none
  else some { capacity := 1, sends := awaitSendsFsn present fuel 0 turns }

/-! ## The GPIO edge monitor loop (gpio_linux.go lines 10 to 80) -/

/-- Outcome of the Ppoll call in one monitor iteration. -/
inductive PollRes
  | pollErr
  | timeout
  | ready
deriving Repr, DecidableEq

/-- A GPIO event: boolean value plus read timestamp. -/
structure Event where
  value : Bool
  timestamp : Nat
deriving Repr, DecidableEq

/-- The environment one iteration of monitorData observes: the killer channel
state at the top of the loop, the Ppoll outcome, the read timestamp, the read
and seek outcomes, and for the delivery select the channel room, the killer
state and the tie break Go uses when several select cases are ready at once. -/
structure IterInput where
  killPending : Bool
  poll : PollRes
  stamp : Nat
  readRes : Except String String
  seekOk : Bool
  roomInChan : Bool
  killAtSend : Bool
  sendWins : Bool

/-- Why the monitor loop returned. -/
inductive TermReason
  | killed
  | ioError
  | overflow
deriving Repr, DecidableEq

/-- Result of one loop iteration: terminate, or continue having possibly sent
one event. -/
inductive StepRes
  | stop (r : TermReason)
  | cont (sent : Option Event)

/-- One iteration of the monitorData loop in gpio_linux.go: the top select on
killer, then Ppoll; on readiness read the value file, rewind it, build the
event and run the delivery select, whose default case (channel full, no kill
pending) terminates the monitor. -/
def stepIter (i : IterInput) : StepRes :=
  if i.killPending then StepRes.stop TermReason.killed
  else
    match i.poll with
    | PollRes.pollErr => StepRes.stop TermReason.ioError
    | PollRes.timeout => StepRes.cont none
    | PollRes.ready =>
      match i.readRes with
      | Except.error _ => StepRes.stop TermReason.ioError
      | Except.ok s =>
        if i.seekOk = false then StepRes.stop TermReason.ioError
        else
          let ev : Event := { value := s == "1", timestamp := i.stamp }
          if i.roomInChan then
            if i.killAtSend then
              if i.sendWins then StepRes.cont (some ev) else StepRes.stop TermReason.killed
            else StepRes.cont (some ev)
          else if i.killAtSend then StepRes.stop TermReason.killed
          else StepRes.stop TermReason.overflow

/-- Observable outcome of a monitorData run: why it stopped (none when the
input list ran out while still looping), the events delivered, and whether the
deferred close of the data channel and of the value file descriptor ran. -/
structure MonResult where
  term : Option TermReason
  sent : List Event
  streamClosed : Bool
  fdReleased : Bool
deriving Repr, DecidableEq

/-- The monitorData loop over a list of iteration environments. Every return
path runs the deferred block, which closes the event channel and the value
file descriptor. -/
def monitorRun : List IterInput → MonResult
  | [] => { term := none, sent := [], streamClosed := false, fdReleased := false }
  | i :: rest =>
    match stepIter i with
    | StepRes.stop r => { term := some r, sent := [], streamClosed := true, fdReleased := true }
    | StepRes.cont sent =>
      let m := monitorRun rest
      { term := m.term, sent := sent.toList ++ m.sent
        streamClosed := m.streamClosed, fdReleased := m.fdReleased }

/-! ## The I2C poller (unnamed/part_007 lines 178 to 240) -/

/-- An I2C sample: timestamp plus the bytes read. -/
structure I2CRecording where
  timestamp : Nat
  data : List Nat
deriving Repr, DecidableEq

/-- The capacity of the data channel I2CPoll creates: make(chan I2CRecording, 0),
whatever bufferdepth was requested. -/
def i2cChanCapacity (_bufferdepth : Nat) : Nat := 0

/-- One committed select arm of the steady state loop of I2CPoll: a value on
killer, a failing read after a tick, a successful read after a tick, or a
receiver completing the rendezvous send. -/
inductive PollEv
  | kill
  | tickErr
  | tick (r : I2CRecording)
  | send
deriving Repr, DecidableEq

/-- Loop state of I2CPoll: the current record and whether dest is the data
channel (true) or nil (false, send case disabled until the next tick). -/
structure PollState where
  record : I2CRecording
  destEnabled : Bool
deriving Repr, DecidableEq

/-- The delivered values of a run of the steady state loop of I2CPoll over a
sequence of committed select arms. kill and tickErr return from the goroutine.
A tick replaces the record in place and re-enables dest; a send hands the
current record to the receiver and disables dest. A send arm cannot commit
while dest is nil, so it is a no-op there (the receiver keeps waiting). -/
def pollRun (s : PollState) : List PollEv → List I2CRecording
  | [] => []
  | PollEv.kill :: _ => []
  | PollEv.tickErr :: _ => []
  | PollEv.tick r :: rest => pollRun { record := r, destEnabled := true } rest
  | PollEv.send :: rest =>
    if s.destEnabled then
      s.record :: pollRun { record := s.record, destEnabled := false } rest
    else pollRun s rest

/-- The loop state after a sequence of non terminating select arms. -/
def stateAfter (s : PollState) : List PollEv → PollState
  | [] => s
  | PollEv.kill :: _ => s
  | PollEv.tickErr :: _ => s
  | PollEv.tick r :: rest => stateAfter { record := r, destEnabled := true } rest
  | PollEv.send :: rest =>
    stateAfter (if s.destEnabled then { record := s.record, destEnabled := false } else s) rest

/-- The most recent sample: the record of the last tick in the list, or the
given record when no tick occurs. -/
def lastTickOr (d : I2CRecording) : List PollEv → I2CRecording
  | [] => d
  | PollEv.tick r :: rest => lastTickOr r rest
  | PollEv.kill :: rest => lastTickOr d rest
  | PollEv.tickErr :: rest => lastTickOr d rest
  | PollEv.send :: rest => lastTickOr d rest

/-- A steady state trace: no terminating arm occurs in it. -/
def noStop (l : List PollEv) : Prop := PollEv.kill ∉ l ∧ PollEv.tickErr ∉ l

/-- The environment of a call to I2CPoll: whether the device open succeeds, the
errno of the I2C_SLAVE ioctl (0 meaning success) and the outcome of the initial
synchronous read. -/
structure I2CEnv where
  openOk : Bool
  ioctlErrno : Nat
  readRes : Except String (List Nat)

/-- The caller visible outcome of I2CPoll: whether a channel and a stop
function are returned, whether the background goroutine starts, whether the
device file descriptor is still open when the call returns, the error, and the
first sample (taken by the synchronous read before the call returns). -/
structure I2CCallResult where
  chanReturned : Bool
  stopReturned : Bool
  taskStarted : Bool
  fdStillOpen : Bool
  err : Option String
  firstSample : Option (List Nat)
deriving Repr, DecidableEq

/-- I2CPoll setup from unnamed/part_007: open the device; on ioctl failure
return the errno without closing the device file (only the read failure path
calls ctrl.Close); on a failing initial read close the file and return the
error; on success the goroutine starts holding the open file and the first
record comes from the synchronous read. -/
def i2cPoll (env : I2CEnv) : I2CCallResult :=
  if env.openOk = false then
    { chanReturned := false, stopReturned := false, taskStarted := false
      fdStillOpen := false, err := some "open failed", firstSample := none }
  else if env.ioctlErrno ≠ 0 then
    { chanReturned := false, stopReturned := false, taskStarted := false
      fdStillOpen := true, err := some "ioctl errno", firstSample := none }
  else
    match env.readRes with
    | Except.error e =>
      { chanReturned := false, stopReturned := false, taskStarted := false
        fdStillOpen := false, err := some e, firstSample := none }
    | Except.ok bs =>
      { chanReturned := true, stopReturned := true, taskStarted := true
        fdStillOpen := true, err := none, firstSample := some bs }

/-! ## Concrete sample values used to exercise the theorems -/

/-- A registry state in which no line is available. -/
def noneAvailSt : PiSt :=
  { available := fun _ => false, cache := fun _ => none, nextId := 0 }

/-- A registry state in which every line is available and nothing is cached. -/
def allAvailSt : PiSt :=
  { available := fun _ => true, cache := fun _ => none, nextId := 0 }

/-- An empty file system. -/
def emptyFS : FS := { files := fun _ => none }

/-- A one slice heap: slice 0 holds the pin list. -/
def sampleHeap : SliceHeap :=
  { data := fun i => if i = 0 then [2, 3, 4] else [], next := 1 }

/-- An Enable environment whose control files stay permission denied forever. -/
def envNeverReady : EnableEnv :=
  { folderExists := false, exportWrite := none, folderAwait := Except.ok ()
    preElapsed := 0, probes := fun _ _ => Probe.permDenied }

/-- Sample I2C recordings. -/
def recA : I2CRecording := { timestamp := 0, data := [0] }

/-- A later I2C recording. -/
def recB : I2CRecording := { timestamp := 1, data := [17] }

/-- A monitor iteration in which a fresh event meets a full channel and an
empty killer channel. -/
def overflowIter : IterInput :=
  { killPending := false, poll := PollRes.ready, stamp := 7, readRes := Except.ok "1"
    seekOk := true, roomInChan := false, killAtSend := false, sendWins := false }

/-! ## Theorems -/

/-- C1: the revision lookup is broken for unrecognized revisions. The fallback
key "40V10" (upper case V) matches no switch case ("26v10", "26v20", "40v10"),
so GetDetailsFor and buildPi log the fallback notice but return an empty pin
list instead of the documented default 40 pin header list; revisions present in
the tables do receive the pin list of their header family. -/
theorem revision_fallback_returns_empty_pins :
    getDetailsForPins "beef" = []
    ∧ (GetDetailsFor "beef" "Pi").gpioPorts = []
    ∧ (GetDetailsFor "beef" "Pi").loggedFallback = true
    ∧ buildPiPorts "beef" = []
    ∧ GPIO40HeaderV1 ≠ []
    ∧ (rev26v10.all fun r => getDetailsForPins r == GPIO26HeaderV1) = true
    ∧ (rev26v20.all fun r => getDetailsForPins r == GPIO26HeaderV2) = true
    ∧ (rev40v10.all fun r => getDetailsForPins r == GPIO40HeaderV1) = true
    ∧ ((rev26v10 ++ rev26v20 ++ rev40v10).all fun r =>
        (GetDetailsFor r "Pi").loggedFallback == false) = true := by
  decide

/-- C5: requesting a line number that is not in the discovered available set
makes GetPort return an error immediately, with an empty filesystem operation
trace and the registry state (in particular the per line cache) unchanged. -/
theorem getPort_unavailable_fails_without_io (st : PiSt) (port : Int)
    (h : st.available port = false) :
    GetPort st port =
      (Except.error ("Port " ++ toString port ++ " is not available on this system"),
       st, []) := by
  simp [GetPort, h]

/-- Exercises the C5 theorem on a concrete state: line 5 of a registry with no
available lines. -/
theorem getPort_unavailable_fails_without_io_app :
    GetPort noneAvailSt 5 =
      (Except.error ("Port " ++ toString (5 : Int) ++ " is not available on this system"),
       noneAvailSt, []) :=
  getPort_unavailable_fails_without_io noneAvailSt 5 rfl

/-- C6: for an available line, GetPort returns a cached controller: two
successive calls return the identical object and leave the state of the second
call unchanged, the cache maps the line to that object, other lines are
untouched, and the cache grows only by inserting a freshly built controller on
the first request for a line. -/
theorem getPort_single_controller_per_line (st : PiSt) (port : Int)
    (hav : st.available port = true) :
    ∃ c st1,
      GetPort st port = (Except.ok c, st1, []) ∧
      GetPort st1 port = (Except.ok c, st1, []) ∧
      st1.cache port = some c ∧
      st1.available = st.available ∧
      (∀ q, q ≠ port → st1.cache q = st.cache q) ∧
      (st.cache port = none → c = { port := port, objId := st.nextId }) ∧
      (∀ c0, st.cache port = some c0 → c = c0 ∧ st1 = st) := by
  have hav' : ¬ st.available port = false := by simp [hav]
  cases hc : st.cache port with
  | some c0 =>
    refine ⟨c0, st, ?_, ?_, hc, rfl, fun q _ => rfl, ?_, ?_⟩
    · simp [GetPort, hav', hc]
    · simp [GetPort, hav', hc]
    · intro h0; simp [hc] at h0
    · intro c1 h1; exact ⟨Option.some.inj h1, rfl⟩
  | none =>
    refine ⟨{ port := port, objId := st.nextId },
      { available := st.available
        cache := fun q => if q = port then some { port := port, objId := st.nextId }
          else st.cache q
        nextId := st.nextId + 1 }, ?_, ?_, ?_, rfl, ?_, fun _ => rfl, ?_⟩
    · simp [GetPort, hav', hc]
    · simp [GetPort, hav']
    · simp
    · intro q hq; simp [hq]
    · intro c0 h0; simp [hc] at h0

/-- Exercises the C6 theorem on a concrete state: line 4 of a registry where
every line is available. -/
theorem getPort_single_controller_per_line_app :
    ∃ c st1,
      GetPort allAvailSt 4 = (Except.ok c, st1, []) ∧
      GetPort st1 4 = (Except.ok c, st1, []) ∧
      st1.cache 4 = some c ∧
      st1.available = allAvailSt.available ∧
      (∀ q, q ≠ 4 → st1.cache q = allAvailSt.cache q) ∧
      (allAvailSt.cache 4 = none → c = { port := 4, objId := allAvailSt.nextId }) ∧
      (∀ c0, allAvailSt.cache 4 = some c0 → c = c0 ∧ st1 = allAvailSt) :=
  getPort_single_controller_per_line allAvailSt 4 rfl

/-- C8: evaluating the I2CPoll setup paths. When the I2C_SLAVE ioctl fails, the
call returns the error with no channel, no stop function and no background
task, but the device file opened at the start of the call is left open,
contradicting the claim that no acquired resource remains in use (the initial
read failure path, by contrast, does close the file). On success the first
sample is the one taken by the synchronous read before the call returns. -/
theorem i2cPoll_ioctl_failure_leaks_fd :
    i2cPoll { openOk := true, ioctlErrno := 5, readRes := Except.ok [1] } =
      { chanReturned := false, stopReturned := false, taskStarted := false
        fdStillOpen := true, err := some "ioctl errno", firstSample := none }
    ∧ i2cPoll { openOk := true, ioctlErrno := 0, readRes := Except.error "read failed" } =
      { chanReturned := false, stopReturned := false, taskStarted := false
        fdStillOpen := false, err := some "read failed", firstSample := none }
    ∧ i2cPoll { openOk := true, ioctlErrno := 0, readRes := Except.ok [9, 8] } =
      { chanReturned := true, stopReturned := true, taskStarted := true
        fdStillOpen := true, err := none, firstSample := some [9, 8] } := by
  decide

/-- C9: writeFile creates a missing file with mode 0444, whose owner write bit
is clear; the creating write succeeds, a second writeFile to the same path by a
non root process fails with a permission error leaving the file unchanged, and
readFile still succeeds, returning the trimmed content. -/
theorem writeFile_creates_readonly_file (fs : FS) (name t t2 : String)
    (hnew : fs.files name = none) :
    (writeFileM false fs name t).2 = none
    ∧ (writeFileM false fs name t).1.files name = some (writeFileMode, t)
    ∧ writeFileMode = 0o444
    ∧ permOwnerWrite writeFileMode = false
    ∧ permOwnerRead writeFileMode = true
    ∧ (writeFileM false (writeFileM false fs name t).1 name t2).2 = some "permission denied"
    ∧ (writeFileM false (writeFileM false fs name t).1 name t2).1 =
        (writeFileM false fs name t).1
    ∧ readFileM false (writeFileM false fs name t).1 name = Except.ok t.trim := by
  refine ⟨?_, ?_, rfl, by decide, by decide, ?_, ?_, ?_⟩
  · simp [writeFileM, hnew]
  · simp [writeFileM, hnew]
  · simp [writeFileM, hnew, permOwnerWrite, writeFileMode]
  · simp [writeFileM, hnew, permOwnerWrite, writeFileMode]
  · simp [readFileM, writeFileM, hnew, permOwnerRead, writeFileMode]

/-- Exercises the C9 theorem on the empty file system. -/
theorem writeFile_creates_readonly_file_app :
    (writeFileM false emptyFS "f" " a " ).2 = none
    ∧ (writeFileM false emptyFS "f" " a ").1.files "f" = some (writeFileMode, " a ")
    ∧ writeFileMode = 0o444
    ∧ permOwnerWrite writeFileMode = false
    ∧ permOwnerRead writeFileMode = true
    ∧ (writeFileM false (writeFileM false emptyFS "f" " a ").1 "f" "b").2 =
        some "permission denied"
    ∧ (writeFileM false (writeFileM false emptyFS "f" " a ").1 "f" "b").1 =
        (writeFileM false emptyFS "f" " a ").1
    ∧ readFileM false (writeFileM false emptyFS "f" " a ").1 "f" =
        Except.ok (" a ").trim :=
  writeFile_creates_readonly_file emptyFS "f" " a " "b" rfl

/-- C10: P1GPIOPorts allocates a fresh slice holding a copy of the stored pin
list: the returned slice is a different object, writing through it leaves the
stored list unchanged, and a later call still returns the original contents. -/
theorem p1GPIOPorts_returns_fresh_copy (h : SliceHeap) (portsId : Nat)
    (hid : portsId < h.next) :
    (p1GPIOPorts portsId h).1 ≠ portsId
    ∧ (p1GPIOPorts portsId h).2.data (p1GPIOPorts portsId h).1 = h.data portsId
    ∧ (p1GPIOPorts portsId h).2.data portsId = h.data portsId
    ∧ ∀ idx x,
        (sliceSet (p1GPIOPorts portsId h).2 (p1GPIOPorts portsId h).1 idx x).data portsId
          = h.data portsId
        ∧ (p1GPIOPorts portsId
              (sliceSet (p1GPIOPorts portsId h).2 (p1GPIOPorts portsId h).1 idx x)).2.data
            (p1GPIOPorts portsId
              (sliceSet (p1GPIOPorts portsId h).2 (p1GPIOPorts portsId h).1 idx x)).1
          = h.data portsId := by
  have hne : portsId ≠ h.next := by omega
  have hne2 : h.next ≠ portsId := by omega
  refine ⟨by simpa [p1GPIOPorts, allocSlice] using hne2, ?_, ?_, ?_⟩
  · simp [p1GPIOPorts, allocSlice]
  · simp [p1GPIOPorts, allocSlice, hne]
  · intro idx x
    constructor
    · simp [p1GPIOPorts, allocSlice, sliceSet, hne]
    · simp [p1GPIOPorts, allocSlice, sliceSet, hne]

/-- Characterization of the inner Enable polling loop: it returns index m
exactly when the check at m is the first ready one at or after k and the whole
poll intervals waited before it fit inside the remaining budget (the first
check is free because it runs before the select). -/
theorem enableAwaitFile_ok_iff (obs : Nat → Probe) (r k m : Nat) :
    enableAwaitFile obs k r = Except.ok m ↔
      (k ≤ m ∧ probeReady (obs m) = true ∧
        (∀ i, k ≤ i → i < m → probeReady (obs i) = false) ∧
        (m = k ∨ pollIntervalMs * (m - k) + 1 ≤ r)) := by
  induction r using Nat.strong_induction_on generalizing k with
  | _ r IH =>
    rw [enableAwaitFile]
    cases hk : probeReady (obs k) with
    | true =>
      simp only [if_true]
      constructor
      · intro h
        have hm : k = m := Except.ok.inj h
        subst hm
        exact ⟨le_refl k, hk, fun i h1 h2 => by omega, Or.inl rfl⟩
      · rintro ⟨hkm, hready, hfirst, _⟩
        have hm : m = k := by
          by_contra hne
          have hlt : k < m := by omega
          have hkf := hfirst k (le_refl k) hlt
          simp [hkf] at hk
        subst hm; rfl
    | false =>
      simp only [Bool.false_eq_true, if_false]
      by_cases hr : r ≤ pollIntervalMs
      · simp only [if_pos hr]
        constructor
        · intro h; cases h
        · rintro ⟨hkm, hready, hfirst, hbound⟩
          exfalso
          have hm : m ≠ k := by
            intro h; rw [h] at hready; simp [hready] at hk
          rcases hbound with h | h
          · exact hm h
          · simp [pollIntervalMs] at h hr
            omega
      · simp only [if_neg hr]
        rw [IH (r - pollIntervalMs)
          (by have h20 : 0 < pollIntervalMs := by simp [pollIntervalMs]
              omega) (k + 1)]
        constructor
        · rintro ⟨h1, h2, h3, h4⟩
          refine ⟨by omega, h2, ?_, ?_⟩
          · intro i hki him
            rcases Nat.eq_or_lt_of_le hki with rfl | hlt
            · exact hk
            · exact h3 i hlt him
          · right
            rcases h4 with rfl | h4
            · simp only [pollIntervalMs] at hr ⊢
              omega
            · simp only [pollIntervalMs] at hr h4 ⊢
              omega
        · rintro ⟨h1, h2, h3, h4⟩
          have hm : m ≠ k := by
            intro h; rw [h] at h2; simp [h2] at hk
          refine ⟨by omega, h2, ?_, ?_⟩
          · intro i h5 h6; exact h3 i (by omega) h6
          · rcases h4 with rfl | h4
            · exact absurd rfl hm
            · simp only [pollIntervalMs] at hr h4 ⊢
              omega

/-- A file whose probe observations are never ready keeps its Enable polling
loop running until the budget is exhausted, which produces a timeout error. -/
theorem enableAwaitFile_never_ready (obs : Nat → Probe) (k r : Nat)
    (h : ∀ j, probeReady (obs j) = false) :
    ∃ e, enableAwaitFile obs k r = Except.error e := by
  cases hres : enableAwaitFile obs k r with
  | error e => exact ⟨e, rfl⟩
  | ok m =>
    have hok := (enableAwaitFile_ok_iff obs r k m).mp hres
    rw [h m] at hok
    simp at hok

/-- If some file in the list is never ready, the outer Enable loop over the
control files fails, whatever budget remains. -/
theorem enableFiles_never_ready (probes : List (Nat → Probe)) (r : Nat)
    (h : ∃ p ∈ probes, ∀ j, probeReady (p j) = false) :
    ∃ e, enableFiles probes r = Except.error e := by
  induction probes generalizing r with
  | nil => rcases h with ⟨p, hp, _⟩; simp at hp
  | cons q rest IH =>
    rcases h with ⟨p, hp, hnever⟩
    rcases List.mem_cons.mp hp with rfl | hmem
    · rcases enableAwaitFile_never_ready p 0 r hnever with ⟨e, he⟩
      exact ⟨e, by simp [enableFiles, he]⟩
    · cases hq : enableAwaitFile q 0 r with
      | error e => exact ⟨e, by simp [enableFiles, hq]⟩
      | ok m =>
        rcases IH (r - pollIntervalMs * m) ⟨p, hmem, hnever⟩ with ⟨e, he⟩
        exact ⟨e, by simp [enableFiles, hq, he]⟩

/-- C2: the Enable readiness polling. A probe observation counts as ready
exactly when the file is present and the probe write did not fail with a
permission error, so a permission denied probe is the only probe outcome that
keeps a present file classified as not yet ready; a loop that succeeds does so
at the first ready observation, having waited only whole poll intervals that
fit into the remaining budget; a file that never becomes ready makes its loop,
and hence the whole Enable call, return an error. -/
theorem enable_polls_files_until_ready :
    (∀ o : Probe, probeReady o = true ↔ (o ≠ Probe.absent ∧ o ≠ Probe.permDenied))
    ∧ (∀ (obs : Nat → Probe) (r m : Nat), enableAwaitFile obs 0 r = Except.ok m →
        probeReady (obs m) = true ∧ (∀ i, i < m → probeReady (obs i) = false) ∧
        (m = 0 ∨ pollIntervalMs * m < r))
    ∧ (∀ (obs : Nat → Probe) (k r : Nat), (∀ j, probeReady (obs j) = false) →
        ∃ e, enableAwaitFile obs k r = Except.error e)
    ∧ (∀ env : EnableEnv, env.folderExists = false → env.exportWrite = none →
        env.folderAwait = Except.ok () →
        (∃ i : Fin 4, ∀ j, probeReady (env.probes i j) = false) →
        ∃ e, enable env = Except.error e) := by
  refine ⟨?_, ?_, enableAwaitFile_never_ready, ?_⟩
  · intro o; cases o <;> simp [probeReady]
  · intro obs r m hok
    have h := (enableAwaitFile_ok_iff obs r 0 m).mp hok
    refine ⟨h.2.1, fun i hi => h.2.2.1 i (Nat.zero_le i) hi, ?_⟩
    rcases h.2.2.2 with h0 | h0
    · exact Or.inl h0
    · right; rw [Nat.sub_zero] at h0; omega
  · intro env hfold hexp hawait ⟨i, hnever⟩
    have hmem : env.probes i ∈
        [env.probes 0, env.probes 1, env.probes 2, env.probes 3] := by
      fin_cases i <;> simp
    rcases enableFiles_never_ready _ (timelimitMs - env.preElapsed)
      ⟨env.probes i, hmem, hnever⟩ with ⟨e, he⟩
    exact ⟨e, by simp [enable, hfold, hexp, hawait, he]⟩

/-- Exercises the C2 theorem on a concrete environment whose control files
answer every probe with a permission error. -/
theorem enable_polls_files_until_ready_app :
    ∃ e, enable envNeverReady = Except.error e :=
  enable_polls_files_until_ready.2.2.2 envNeverReady rfl rfl rfl ⟨1, fun _ => rfl⟩

/-- Exercises the C10 theorem on a concrete one slice heap. -/
theorem p1GPIOPorts_returns_fresh_copy_app :
    (p1GPIOPorts 0 sampleHeap).1 ≠ 0
    ∧ (p1GPIOPorts 0 sampleHeap).2.data (p1GPIOPorts 0 sampleHeap).1 = sampleHeap.data 0
    ∧ (p1GPIOPorts 0 sampleHeap).2.data 0 = sampleHeap.data 0
    ∧ ∀ idx x,
        (sliceSet (p1GPIOPorts 0 sampleHeap).2 (p1GPIOPorts 0 sampleHeap).1 idx x).data 0
          = sampleHeap.data 0
        ∧ (p1GPIOPorts 0
              (sliceSet (p1GPIOPorts 0 sampleHeap).2 (p1GPIOPorts 0 sampleHeap).1 idx x)).2.data
            (p1GPIOPorts 0
              (sliceSet (p1GPIOPorts 0 sampleHeap).2 (p1GPIOPorts 0 sampleHeap).1 idx x)).1
          = sampleHeap.data 0 :=
  p1GPIOPorts_returns_fresh_copy sampleHeap 0 (by decide)

/-- Splitting a steady state trace at its head. -/
theorem noStop_cons {e : PollEv} {l : List PollEv} (h : noStop (e :: l)) :
    e ≠ PollEv.kill ∧ e ≠ PollEv.tickErr ∧ noStop l := by
  rcases h with ⟨h1, h2⟩
  simp only [List.mem_cons, not_or] at h1 h2
  exact ⟨fun he => h1.1 he.symm, fun he => h2.1 he.symm, h1.2, h2.2⟩

/-- Along a steady state trace the loop record is always the most recent
sample: the record of the last committed tick, or the initial record. -/
theorem stateAfter_record (pre : List PollEv) :
    ∀ s : PollState, noStop pre →
      (stateAfter s pre).record = lastTickOr s.record pre := by
  induction pre with
  | nil => intro s _; rfl
  | cons e rest IH =>
    intro s h
    rcases noStop_cons h with ⟨hk, ht, hrest⟩
    cases e with
    | kill => exact absurd rfl hk
    | tickErr => exact absurd rfl ht
    | tick r =>
      simpa [stateAfter, lastTickOr] using IH { record := r, destEnabled := true } hrest
    | send =>
      cases hd : s.destEnabled with
      | true =>
        simpa [stateAfter, lastTickOr, hd] using
          IH { record := s.record, destEnabled := false } hrest
      | false => simpa [stateAfter, lastTickOr, hd] using IH s hrest

/-- Runs compose over a steady state prefix. -/
theorem pollRun_append (pre : List PollEv) :
    ∀ (s : PollState) (tl : List PollEv), noStop pre →
      pollRun s (pre ++ tl) = pollRun s pre ++ pollRun (stateAfter s pre) tl := by
  induction pre with
  | nil => intro s tl _; rfl
  | cons e rest IH =>
    intro s tl h
    rcases noStop_cons h with ⟨hk, ht, hrest⟩
    cases e with
    | kill => exact absurd rfl hk
    | tickErr => exact absurd rfl ht
    | tick r =>
      simpa [pollRun, stateAfter] using IH { record := r, destEnabled := true } tl hrest
    | send =>
      cases hd : s.destEnabled with
      | true =>
        simpa [pollRun, stateAfter, hd] using
          IH { record := s.record, destEnabled := false } tl hrest
      | false => simpa [pollRun, stateAfter, hd] using IH s tl hrest

/-- A steady state trace without a completed receive delivers nothing: ticks
overwrite the record in place, they never queue samples. -/
theorem pollRun_no_send (pre : List PollEv) :
    ∀ s : PollState, noStop pre → PollEv.send ∉ pre → pollRun s pre = [] := by
  induction pre with
  | nil => intro s _ _; rfl
  | cons e rest IH =>
    intro s h1 h2
    rcases noStop_cons h1 with ⟨hk, ht, hrest⟩
    have h2' : PollEv.send ∉ rest := fun hm => h2 (List.mem_cons_of_mem _ hm)
    cases e with
    | kill => exact absurd rfl hk
    | tickErr => exact absurd rfl ht
    | send => exact absurd (List.mem_cons_self _ _) h2
    | tick r =>
      simpa [pollRun] using IH { record := r, destEnabled := true } hrest h2'

/-- C3: latest value wins delivery in the I2C poller. The output channel has
capacity zero whatever buffer depth was requested, so delivery is a rendezvous;
after any steady state trace the loop record equals the most recent sample,
and a receive completing next hands over exactly that sample; a trace without
a completed receive delivers nothing, so samples produced between receives are
overwritten, never queued; in particular after two ticks the receiver obtains
only the second sample. -/
theorem i2c_receive_yields_latest_sample :
    (∀ bufferdepth : Nat, i2cChanCapacity bufferdepth = 0)
    ∧ (∀ (s : PollState) (pre post : List PollEv), noStop pre →
        (stateAfter s pre).record = lastTickOr s.record pre
        ∧ ((stateAfter s pre).destEnabled = true →
            pollRun s (pre ++ PollEv.send :: post) =
              pollRun s pre ++ lastTickOr s.record pre ::
                pollRun { record := lastTickOr s.record pre, destEnabled := false } post))
    ∧ (∀ (s : PollState) (pre : List PollEv), noStop pre → PollEv.send ∉ pre →
        pollRun s pre = [])
    ∧ (∀ r0 r1 r2 : I2CRecording,
        pollRun { record := r0, destEnabled := true }
          [PollEv.tick r1, PollEv.tick r2, PollEv.send] = [r2]) := by
  refine ⟨fun _ => rfl, ?_, fun s pre h1 h2 => pollRun_no_send pre s h1 h2,
    fun r0 r1 r2 => rfl⟩
  intro s pre post h
  have hrec := stateAfter_record pre s h
  refine ⟨hrec, fun hd => ?_⟩
  rw [pollRun_append pre s (PollEv.send :: post) h]
  have hsend : pollRun (stateAfter s pre) (PollEv.send :: post) =
      lastTickOr s.record pre ::
        pollRun { record := lastTickOr s.record pre, destEnabled := false } post := by
    simp [pollRun, hd, hrec]
  rw [hsend]

/-- Exercises the C3 theorem: a tick followed by a completed receive hands over
the sample of that tick. -/
theorem i2c_receive_yields_latest_sample_app :
    pollRun { record := recA, destEnabled := true }
        ([PollEv.tick recB] ++ PollEv.send :: []) =
      pollRun { record := recA, destEnabled := true } [PollEv.tick recB] ++
        lastTickOr recA [PollEv.tick recB] ::
          pollRun { record := lastTickOr recA [PollEv.tick recB], destEnabled := false } [] :=
  (i2c_receive_yields_latest_sample.2.1
    { record := recA, destEnabled := true } [PollEv.tick recB] []
    (by simp [noStop])).2 rfl

/-- C4: when the monitor has a fresh event (poll reported readiness, read and
seek succeeded), the event channel is full and no cancellation is pending, the
delivery select falls to its default case: the monitor stops with the overflow
reason, delivers nothing further, and the deferred block closes the event
stream and releases the value file descriptor. -/
theorem monitor_overflow_closes_stream (pre : List IterInput) (i : IterInput)
    (hlive : (monitorRun pre).term = none)
    (hkill : i.killPending = false) (hpoll : i.poll = PollRes.ready)
    (hread : ∃ s, i.readRes = Except.ok s) (hseek : i.seekOk = true)
    (hroom : i.roomInChan = false) (hks : i.killAtSend = false) :
    monitorRun (pre ++ [i]) =
      { term := some TermReason.overflow, sent := (monitorRun pre).sent
        streamClosed := true, fdReleased := true } := by
  induction pre with
  | nil =>
    rcases hread with ⟨s, hs⟩
    simp [monitorRun, stepIter, hkill, hpoll, hs, hseek, hroom, hks]
  | cons x rest IH =>
    cases hx : stepIter x with
    | stop r => simp [monitorRun, hx] at hlive
    | cont sent =>
      have hlive' : (monitorRun rest).term = none := by
        simpa [monitorRun, hx] using hlive
      have := IH hlive'
      simp [monitorRun, hx, this]

/-- Exercises the C4 theorem on a single iteration with a full channel. -/
theorem monitor_overflow_closes_stream_app :
    monitorRun ([] ++ [overflowIter]) =
      { term := some TermReason.overflow, sent := (monitorRun []).sent
        streamClosed := true, fdReleased := true } :=
  monitor_overflow_closes_stream [] overflowIter rfl rfl rfl ⟨"1", rfl⟩ rfl rfl rfl

/-- Every polling goroutine sends exactly one value. -/
theorem awaitSends_length (present : Nat → Bool) :
    ∀ fuel k, (awaitSends present fuel k).length = 1 := by
  intro fuel
  induction fuel with
  | zero =>
    intro k
    by_cases h : present k = true <;> simp [awaitSends, h]
  | succ n IH =>
    intro k
    by_cases h : present k = true <;> simp [awaitSends, h, IH]

/-- The polling goroutine sends the success value exactly when the condition
holds at some check within the budget; otherwise it sends the timeout error. -/
theorem awaitSends_none_iff (present : Nat → Bool) :
    ∀ fuel k, awaitSends present fuel k = [none] ↔
      ∃ j, j ≤ fuel ∧ present (k + j) = true := by
  intro fuel
  induction fuel with
  | zero =>
    intro k
    by_cases h : present k = true
    · exact iff_of_true (by simp [awaitSends, h]) ⟨0, le_refl 0, by simpa using h⟩
    · refine iff_of_false (by simp [awaitSends, h]) ?_
      rintro ⟨j, hj, hp⟩
      have hj0 : j = 0 := Nat.le_zero.mp hj
      subst hj0
      exact h (by simpa using hp)
  | succ n IH =>
    intro k
    by_cases h : present k = true
    · exact iff_of_true (by simp [awaitSends, h]) ⟨0, Nat.zero_le _, by simpa using h⟩
    · have hx : awaitSends present (n + 1) k = awaitSends present n (k + 1) := by
        simp [awaitSends, h]
      rw [hx, IH (k + 1)]
      constructor
      · rintro ⟨j, hj, hp⟩
        refine ⟨j + 1, by omega, ?_⟩
        have harr : k + (j + 1) = k + 1 + j := by omega
        rw [harr]; exact hp
      · rintro ⟨j, hj, hp⟩
        cases j with
        | zero => exact absurd (by simpa using hp) h
        | succ m =>
          refine ⟨m, by omega, ?_⟩
          have harr : k + 1 + m = k + (m + 1) := by omega
          rw [harr]; exact hp

/-- The single value sent by the polling goroutine is the success or the
timeout error; nothing else. -/
theorem awaitSends_cases (present : Nat → Bool) :
    ∀ fuel k, awaitSends present fuel k = [none] ∨
      awaitSends present fuel k = [some timeoutMsg] := by
  intro fuel
  induction fuel with
  | zero =>
    intro k
    by_cases h : present k = true <;> simp [awaitSends, h]
  | succ n IH =>
    intro k
    by_cases h : present k = true
    · simp [awaitSends, h]
    · simpa [awaitSends, h] using IH (k + 1)

/-- The fsnotify goroutine also sends exactly one value. -/
theorem awaitSendsFsn_length (present : Nat → Bool) (turns : Nat → WatchTurn) :
    ∀ fuel k, (awaitSendsFsn present fuel k turns).length = 1 := by
  intro fuel
  induction fuel with
  | zero =>
    intro k
    by_cases h : present k = true <;> simp [awaitSendsFsn, h]
  | succ n IH =>
    intro k
    by_cases h : present k = true
    · simp [awaitSendsFsn, h]
    · cases ht : turns k with
      | event => simpa [awaitSendsFsn, h, ht] using IH (k + 1)
      | watchErr e => simp [awaitSendsFsn, h, ht]

/-- C7 counterexample: the fsnotify variant of awaitFileCreate can resolve its
handle with an error forwarded from the watcher Errors channel, a single value
that is neither a success nor the timeout error, so the claimed three way
enumeration of outcomes is not exhaustive. -/
theorem await_handle_watcher_error_outcome :
    awaitFileCreateFsn false true (fun _ => false) 5
        (fun _ => WatchTurn.watchErr "inotify queue overflow")
      = some { capacity := 1, sends := [some "inotify queue overflow"] }
    ∧ (some "inotify queue overflow" : Option String) ≠ none
    ∧ "inotify queue overflow" ≠ timeoutMsg := by
  refine ⟨rfl, by simp, by simp [timeoutMsg]⟩

/-- C7 (amended): every handle successfully returned by awaitFileCreate or
awaitFileRemove is a channel of capacity one on which exactly one value is
ever produced; for the polling variants that value is an immediate success, a
success when the polled condition is first observed, or the timeout error, the
success occurring exactly when the condition holds within the budget; the
event driven fsnotify variant keeps the capacity one, exactly one value
contract (its value may also be a forwarded watcher error). -/
theorem await_handles_single_shot :
    (∀ (existsNow parentOk : Bool) (present : Nat → Bool) (fuel : Nat) (h : Handle),
      awaitFileCreate existsNow parentOk present fuel = some h →
        h.capacity = 1 ∧ h.sends.length = 1 ∧
        (h.sends = [none] ∨ h.sends = [some timeoutMsg]) ∧
        (h.sends = [none] ↔ (existsNow = true ∨ ∃ j, j ≤ fuel ∧ present j = true)))
    ∧ (∀ (absentNow : Bool) (absent : Nat → Bool) (fuel : Nat) (h : Handle),
      awaitFileRemove absentNow absent fuel = some h →
        h.capacity = 1 ∧ h.sends.length = 1 ∧
        (h.sends = [none] ∨ h.sends = [some timeoutMsg]) ∧
        (h.sends = [none] ↔ (absentNow = true ∨ ∃ j, j ≤ fuel ∧ absent j = true)))
    ∧ (∀ (existsNow watcherOk : Bool) (present : Nat → Bool) (fuel : Nat)
        (turns : Nat → WatchTurn) (h : Handle),
      awaitFileCreateFsn existsNow watcherOk present fuel turns = some h →
        h.capacity = 1 ∧ h.sends.length = 1) := by
  refine ⟨?_, ?_, ?_⟩
  · intro eN pOk present fuel h heq
    cases eN with
    | true =>
      have hh : h = { capacity := 1, sends := [none] } :=
        (Option.some.inj (by simpa [awaitFileCreate] using heq)).symm
      subst hh
      exact ⟨rfl, rfl, Or.inl rfl, by simp⟩
    | false =>
      cases pOk with
      | false => simp [awaitFileCreate] at heq
      | true =>
        have hh : h = { capacity := 1, sends := awaitSends present fuel 0 } :=
          (Option.some.inj (by simpa [awaitFileCreate] using heq)).symm
        subst hh
        refine ⟨rfl, awaitSends_length present fuel 0, awaitSends_cases present fuel 0, ?_⟩
        rw [awaitSends_none_iff]
        simp
  · intro aN absent fuel h heq
    cases aN with
    | true =>
      have hh : h = { capacity := 1, sends := [none] } :=
        (Option.some.inj (by simpa [awaitFileRemove] using heq)).symm
      subst hh
      exact ⟨rfl, rfl, Or.inl rfl, by simp⟩
    | false =>
      have hh : h = { capacity := 1, sends := awaitSends absent fuel 0 } :=
        (Option.some.inj (by simpa [awaitFileRemove] using heq)).symm
      subst hh
      refine ⟨rfl, awaitSends_length absent fuel 0, awaitSends_cases absent fuel 0, ?_⟩
      rw [awaitSends_none_iff]
      simp
  · intro eN wOk present fuel turns h heq
    cases eN with
    | true =>
      have hh : h = { capacity := 1, sends := [none] } :=
        (Option.some.inj (by simpa [awaitFileCreateFsn] using heq)).symm
      subst hh
      exact ⟨rfl, rfl⟩
    | false =>
      cases wOk with
      | false => simp [awaitFileCreateFsn] at heq
      | true =>
        have hh : h = { capacity := 1, sends := awaitSendsFsn present fuel 0 turns } :=
          (Option.some.inj (by simpa [awaitFileCreateFsn] using heq)).symm
        subst hh
        exact ⟨rfl, awaitSendsFsn_length present turns fuel 0⟩

/-- Exercises the C7 theorem on a file that already exists at call time. -/
theorem await_handles_single_shot_app :
    ({ capacity := 1, sends := [none] } : Handle).capacity = 1
    ∧ ({ capacity := 1, sends := [none] } : Handle).sends.length = 1
    ∧ (({ capacity := 1, sends := [none] } : Handle).sends = [none] ∨
        ({ capacity := 1, sends := [none] } : Handle).sends = [some timeoutMsg])
    ∧ (({ capacity := 1, sends := [none] } : Handle).sends = [none] ↔
        (true = true ∨ ∃ j, j ≤ 3 ∧ (fun _ : Nat => false) j = true)) :=
  await_handles_single_shot.1 true true (fun _ => false) 3
    { capacity := 1, sends := [none] } rfl

end Gopisysfs
